import Mathlib

/-!
Verification development for the team health manager core.

The definitions below are shallow embeddings of the Python source:
timestamps and dates are modelled as integers (days or abstract ticks),
optional values as Option, raised exceptions as Except errors, and the
external collaborators (JIRA story fetches, the AI score oracle) as
function parameters.
-/

/-- A raw PagerDuty log entry, as consumed by Incident post-init.
Mirrors the dict fields accessed by the source: type, created_at,
summary and channel.type. A missing or empty created_at is none. -/
structure LogEntry where
  type : String
  created_at : Option Nat := none
  summary : Option String := none
  channelType : Option String := none
deriving DecidableEq, Repr

/-- The incident descriptor fields read from raw incident data. -/
structure Descriptor where
  title : Option String := none
  created_at : Option Nat := none
  urgency : Option String := none
deriving DecidableEq, Repr

/-- The mutable fields that the log scan of Incident post-init fills in. -/
structure ScanResult where
  first_acknowledge_time : Option Nat := none
  resolved_time : Option Nat := none
  resolution_type : Option String := none
  timed_out : Bool := false
deriving DecidableEq, Repr

/-- The scan loop of Incident post-init over raw logs. Each branch that
records a signal ends with a break in the source, embedded here by
returning without recursing. The has_ack flag mirrors the local
has_acknowledgment variable of the source. -/
def scanLogs (has_ack : Bool) : List LogEntry → ScanResult
  | [] => {}
  | log :: rest =>
    if log.type = "acknowledge_log_entry" then
      match log.created_at with
      | some t => { first_acknowledge_time := some t }
      | none => scanLogs has_ack rest
    else if log.type = "resolve_log_entry" then
      match log.created_at with
      | some t =>
        if !has_ack && log.summary == some "Resolved through the API." then
          { resolved_time := some t, resolution_type := some "AUTO" }
        else
          { resolved_time := some t, resolution_type := some "MANUAL" }
      | none => scanLogs has_ack rest
    else if log.type = "escalate_log_entry" && log.channelType == some "timeout" then
      { timed_out := true }
    else
      scanLogs has_ack rest

/-- A reconstructed PagerDuty incident. -/
structure Incident where
  title : Option String
  created : Option Nat
  high_urgency : Bool
  first_acknowledge_time : Option Nat
  resolved_time : Option Nat
  resolution_type : Option String
  timed_out : Bool
deriving DecidableEq, Repr

/-- Incident reconstruction from a descriptor and its raw log list,
embedding Incident post-init. -/
def reconstruct (d : Descriptor) (raw_logs : List LogEntry) : Incident :=
  let scan := scanLogs false raw_logs
  { title := d.title
    created := d.created_at
    high_urgency := d.urgency == some "high"
    first_acknowledge_time := scan.first_acknowledge_time
    resolved_time := scan.resolved_time
    resolution_type := scan.resolution_type
    timed_out := scan.timed_out }

/-- A log entry that stops the scan loop by recording an acknowledgment:
an acknowledge entry carrying a timestamp. -/
def breakingAck (l : LogEntry) : Prop :=
  l.type = "acknowledge_log_entry" ∧ l.created_at.isSome

/-- A log entry that stops the scan loop by recording a resolution:
a resolve entry carrying a timestamp. -/
def breakingResolve (l : LogEntry) : Prop :=
  l.type = "resolve_log_entry" ∧ l.created_at.isSome

/-- A timeout escalation entry: escalate kind with timeout channel. -/
def timeoutEscalation (l : LogEntry) : Prop :=
  l.type = "escalate_log_entry" ∧ l.channelType = some "timeout"

/-- How many of the three derived signals a scan result carries. -/
def signalCount (r : ScanResult) : Nat :=
  (if r.first_acknowledge_time.isSome then 1 else 0) +
    (if r.resolved_time.isSome then 1 else 0) +
    (if r.timed_out then 1 else 0)

theorem scanLogs_signalCount (b : Bool) (logs : List LogEntry) :
    signalCount (scanLogs b logs) ≤ 1 := by
  induction logs with
  | nil => simp [scanLogs, signalCount]
  | cons log rest ih =>
    simp only [scanLogs]
    repeat' split
    all_goals first | exact ih | simp [signalCount]

/-- Some timeout escalation entry occurs in the list with no timestamped
acknowledge or resolve entry anywhere before it. -/
def timeoutBeforeBreak (logs : List LogEntry) : Prop :=
  ∃ pre l suf, logs = pre ++ l :: suf ∧ timeoutEscalation l ∧
    ∀ p ∈ pre, ¬breakingAck p ∧ ¬breakingResolve p

theorem timeoutBeforeBreak_nil : ¬ timeoutBeforeBreak [] := by
  rintro ⟨pre, l, suf, heq, -, -⟩
  cases pre <;> simp at heq

theorem timeoutBeforeBreak_cons_blocked (log : LogEntry) (rest : List LogEntry)
    (hb : breakingAck log ∨ breakingResolve log) :
    ¬ timeoutBeforeBreak (log :: rest) := by
  rintro ⟨pre, l, suf, heq, htl, hpre⟩
  cases pre with
  | nil =>
    simp only [List.nil_append, List.cons.injEq] at heq
    have htype : log.type = "escalate_log_entry" := by rw [heq.1]; exact htl.1
    rcases hb with hb | hb
    · exact absurd (hb.1.symm.trans htype) (by decide)
    · exact absurd (hb.1.symm.trans htype) (by decide)
  | cons p pre =>
    simp only [List.cons_append, List.cons.injEq] at heq
    have hmem := hpre p (by simp)
    rw [← heq.1] at hmem
    rcases hb with hb | hb
    · exact hmem.1 hb
    · exact hmem.2 hb

theorem timeoutBeforeBreak_cons_skip (log : LogEntry) (rest : List LogEntry)
    (ha : ¬breakingAck log) (hr : ¬breakingResolve log) (ht : ¬timeoutEscalation log) :
    timeoutBeforeBreak (log :: rest) ↔ timeoutBeforeBreak rest := by
  constructor
  · rintro ⟨pre, l, suf, heq, htl, hpre⟩
    cases pre with
    | nil =>
      simp only [List.nil_append, List.cons.injEq] at heq
      exact absurd (heq.1 ▸ htl) ht
    | cons p pre =>
      simp only [List.cons_append, List.cons.injEq] at heq
      exact ⟨pre, l, suf, heq.2, htl, fun q hq => hpre q (by simp [hq])⟩
  · rintro ⟨pre, l, suf, heq, htl, hpre⟩
    refine ⟨log :: pre, l, suf, by simp [heq], htl, ?_⟩
    intro p hp
    rcases List.mem_cons.mp hp with hp | hp
    · exact hp ▸ ⟨ha, hr⟩
    · exact hpre p hp

theorem timeoutBeforeBreak_cons_timeout (log : LogEntry) (rest : List LogEntry)
    (ht : timeoutEscalation log) : timeoutBeforeBreak (log :: rest) :=
  ⟨[], log, rest, rfl, ht, by simp⟩

theorem scanLogs_timed_out_iff (b : Bool) (logs : List LogEntry) :
    (scanLogs b logs).timed_out = true ↔ timeoutBeforeBreak logs := by
  induction logs with
  | nil =>
    simp only [scanLogs]
    exact ⟨fun h => by simp at h, fun h => absurd h timeoutBeforeBreak_nil⟩
  | cons log rest ih =>
    simp only [scanLogs]
    split
    · rename_i hack
      cases hca : log.created_at with
      | some t =>
        simp only [hca]
        constructor
        · intro h; simp at h
        · intro h
          exact absurd h (timeoutBeforeBreak_cons_blocked log rest
            (Or.inl ⟨hack, by rw [hca]; rfl⟩))
      | none =>
        simp only [hca]
        rw [ih]
        exact (timeoutBeforeBreak_cons_skip log rest
          (by simp [breakingAck, hca])
          (by simp [breakingResolve, hack])
          (by simp [timeoutEscalation, hack])).symm
    · rename_i hnack
      split
      · rename_i hres
        cases hca : log.created_at with
        | some t =>
          simp only [hca]
          constructor
          · intro h
            split at h <;> simp at h
          · intro h
            exact absurd h (timeoutBeforeBreak_cons_blocked log rest
              (Or.inr ⟨hres, by rw [hca]; rfl⟩))
        | none =>
          simp only [hca]
          rw [ih]
          exact (timeoutBeforeBreak_cons_skip log rest
            (by simp [breakingAck, hres])
            (by simp [breakingResolve, hca])
            (by simp [timeoutEscalation, hres])).symm
      · rename_i hnres
        split
        · rename_i hto
          simp only [Bool.and_eq_true, decide_eq_true_eq, beq_iff_eq] at hto
          constructor
          · intro _
            exact timeoutBeforeBreak_cons_timeout log rest ⟨hto.1, hto.2⟩
          · intro _; rfl
        · rename_i hnto
          simp only [Bool.and_eq_true, decide_eq_true_eq, beq_iff_eq, not_and] at hnto
          rw [ih]
          exact (timeoutBeforeBreak_cons_skip log rest
            (fun hb => hnack hb.1)
            (fun hb => hnres hb.1)
            (fun hb => hnto hb.1 hb.2)).symm

/-- A timestamped acknowledge log entry at time 3. -/
def ackEntry : LogEntry := { type := "acknowledge_log_entry", created_at := some 3 }

/-- A timestamped resolve entry carrying the canonical auto-resolution summary. -/
def autoResolveEntry : LogEntry :=
  { type := "resolve_log_entry", created_at := some 5,
    summary := some "Resolved through the API." }

/-- A timeout-channel escalation entry. -/
def timeoutEntry : LogEntry :=
  { type := "escalate_log_entry", channelType := some "timeout" }

/-- C1: with events [resolve carrying the canonical summary] and no
acknowledge, reconstruction yields resolutionKind AUTO; but with events
[acknowledge, resolve with that same summary] the scan stops at the
acknowledgment, leaving resolutionKind unset (none) and no resolved time,
rather than the MANUAL the claim states. -/
theorem c1_resolution_kind_eval :
    (reconstruct {} [autoResolveEntry]).resolution_type = some "AUTO" ∧
      (reconstruct {} [ackEntry, autoResolveEntry]).resolution_type = none ∧
      (reconstruct {} [ackEntry, autoResolveEntry]).resolved_time = none ∧
      (reconstruct {} [ackEntry, autoResolveEntry]).first_acknowledge_time = some 3 :=
  ⟨rfl, rfl, rfl, rfl⟩

/-- How many of the three derived signals a reconstructed incident carries. -/
def incidentSignalCount (i : Incident) : Nat :=
  (if i.first_acknowledge_time.isSome then 1 else 0) +
    (if i.resolved_time.isSome then 1 else 0) +
    (if i.timed_out then 1 else 0)

/-- C3: for every descriptor and event list, at most one of the three
derived signals is set on the reconstructed incident, so an incident never
carries both an acknowledgment time and a resolution time. -/
theorem c3_at_most_one_signal (d : Descriptor) (logs : List LogEntry) :
    incidentSignalCount (reconstruct d logs) ≤ 1 ∧
      ¬((reconstruct d logs).first_acknowledge_time.isSome ∧
        (reconstruct d logs).resolved_time.isSome) := by
  constructor
  · exact scanLogs_signalCount false logs
  · rintro ⟨h1, h2⟩
    have h := scanLogs_signalCount false logs
    simp only [signalCount] at h
    have e1 : (scanLogs false logs).first_acknowledge_time.isSome = true := h1
    have e2 : (scanLogs false logs).resolved_time.isSome = true := h2
    rw [e1, e2] at h
    simp only [eq_self_iff_true, if_true] at h
    omega

/-- Concrete instance of the C3 theorem. -/
theorem c3_at_most_one_signal_witness :
    incidentSignalCount (reconstruct {} [ackEntry, autoResolveEntry]) ≤ 1 ∧
      ¬((reconstruct {} [ackEntry, autoResolveEntry]).first_acknowledge_time.isSome ∧
        (reconstruct {} [ackEntry, autoResolveEntry]).resolved_time.isSome) :=
  c3_at_most_one_signal {} [ackEntry, autoResolveEntry]

/-- C2 counterexample: the event list [acknowledge, timeout escalation]
contains a timeout-channel escalate event, yet reconstruction leaves
timedOut false, because the scan stops at the acknowledgment. -/
theorem c2_timeout_after_ack_counterexample :
    timeoutEscalation timeoutEntry ∧
      timeoutEntry ∈ [ackEntry, timeoutEntry] ∧
      (reconstruct {} [ackEntry, timeoutEntry]).timed_out = false :=
  ⟨⟨rfl, rfl⟩, by simp, rfl⟩

/-- C2 (amended): timedOut is true iff a timeout-channel escalate event
occurs in the list with no timestamped acknowledge or resolve event
anywhere before it; in particular a timeout escalation that appears after
a timestamped acknowledge or resolve leaves timedOut false. -/
theorem c2_timed_out_iff_timeout_before_break (d : Descriptor) (logs : List LogEntry) :
    (reconstruct d logs).timed_out = true ↔ timeoutBeforeBreak logs :=
  scanLogs_timed_out_iff false logs

/-- Concrete instance of the amended C2 theorem. -/
theorem c2_timed_out_iff_timeout_before_break_witness :
    (reconstruct {} [timeoutEntry]).timed_out = true :=
  (c2_timed_out_iff_timeout_before_break {} [timeoutEntry]).mpr
    (timeoutBeforeBreak_cons_timeout timeoutEntry [] ⟨rfl, rfl⟩)

/-- Times of one reconstructed incident as used by the coverage pass of
policy_statistics: creation time and optional resolution time. -/
structure PDIncidentTimes where
  created : Int
  resolved_time : Option Int := none
deriving DecidableEq, Repr

/-- Insert an incident into a list sorted by creation time, keeping equal
keys in their original relative order. -/
def insertByCreated (x : PDIncidentTimes) :
    List PDIncidentTimes → List PDIncidentTimes
  | [] => [x]
  | y :: ys =>
    if x.created ≤ y.created then x :: y :: ys else y :: insertByCreated x ys

/-- Stable ascending sort by creation time, modelling the Python sorted
call with the created key. -/
def sortByCreated : List PDIncidentTimes → List PDIncidentTimes
  | [] => []
  | x :: xs => insertByCreated x (sortByCreated xs)

/-- One iteration of the gap-accounting loop of policy_statistics: add the
gap when the incident starts after the cursor, then advance the cursor to
the later of itself and the resolution time, the window end standing in
for an unresolved incident. -/
def coverage_step (e : Int) (acc : Int × Int) (incident : PDIncidentTimes) :
    Int × Int :=
  let total := if incident.created > acc.2 then acc.1 + (incident.created - acc.2) else acc.1
  let resolved := match incident.resolved_time with
    | some r => r
    | none => e
  (total, max acc.2 resolved)

/-- The total response time computation of policy_statistics: the early
return of zero for an empty incident list, then the gap-accounting fold
over incidents sorted by creation time, plus the remaining time after the
final cursor. -/
def total_response_time (incidents : List PDIncidentTimes) (start e : Int) : Int :=
  if incidents = [] then 0
  else
    let folded := (sortByCreated incidents).foldl (coverage_step e) (0, start)
    if folded.2 < e then folded.1 + (e - folded.2) else folded.1

/-- The claimed cursor recursion: gaps before each incident in order, and
the remaining window after the final cursor position. -/
def coverage_gap_claim_loop (e : Int) : List PDIncidentTimes → Int → Int
  | [], cursor => if cursor < e then e - cursor else 0
  | inc :: rest, cursor =>
    (if inc.created > cursor then inc.created - cursor else 0) +
      coverage_gap_claim_loop e rest
        (max cursor (match inc.resolved_time with | some r => r | none => e))

/-- The coverage statistic as the claim words it: sort by creation time
ascending, then run the cursor recursion from the window start. -/
def coverage_gap_claim (incidents : List PDIncidentTimes) (start e : Int) : Int :=
  coverage_gap_claim_loop e (sortByCreated incidents) start

theorem coverage_fold_eq (e : Int) (l : List PDIncidentTimes) :
    ∀ t cur, (if (l.foldl (coverage_step e) (t, cur)).2 < e
        then (l.foldl (coverage_step e) (t, cur)).1 + (e - (l.foldl (coverage_step e) (t, cur)).2)
        else (l.foldl (coverage_step e) (t, cur)).1) =
      t + coverage_gap_claim_loop e l cur := by
  induction l with
  | nil =>
    intro t cur
    simp only [List.foldl_nil, coverage_gap_claim_loop]
    split <;> omega
  | cons inc rest ih =>
    intro t cur
    simp only [List.foldl_cons, coverage_step, coverage_gap_claim_loop]
    rw [ih]
    split <;> omega

/-- C4 (amended): for every non-empty incident list the coverage statistic
is the claimed cursor-based gap accounting over incidents sorted by
creation time, and the window [0,100] with a single incident created at 10
and resolved at 40 yields 70; the empty list instead short-circuits to
zero before the accounting runs. -/
theorem c4_total_response_time_gap :
    (∀ incidents start e, incidents ≠ [] →
        total_response_time incidents start e = coverage_gap_claim incidents start e) ∧
      total_response_time [{ created := 10, resolved_time := some 40 }] 0 100 = 70 := by
  constructor
  · intro incidents start e hne
    unfold total_response_time coverage_gap_claim
    rw [if_neg hne]
    simpa using coverage_fold_eq e (sortByCreated incidents) 0 start
  · rfl

/-- Concrete instance of the amended C4 theorem. -/
theorem c4_total_response_time_gap_witness :
    total_response_time [{ created := 10, resolved_time := some 40 }] 0 100 =
      coverage_gap_claim [{ created := 10, resolved_time := some 40 }] 0 100 ∧
      coverage_gap_claim [{ created := 10, resolved_time := some 40 }] 0 100 = 70 :=
  ⟨c4_total_response_time_gap.1 [{ created := 10, resolved_time := some 40 }] 0 100
    (by simp), rfl⟩

/-- C4 counterexample: on the empty incident list the code short-circuits
the statistic to zero, while the claimed accounting leaves the entire
window [0,100] as a gap of 100. -/
theorem c4_empty_list_counterexample :
    total_response_time [] 0 100 = 0 ∧ coverage_gap_claim [] 0 100 = 100 :=
  ⟨rfl, rfl⟩

/-- Canonical issue lifecycle states. -/
inductive IssueStatus
  | TODO
  | IN_PROGRESS
  | DONE
  | INVALID
deriving DecidableEq, Repr

/-- The enum value strings of the canonical states, used in problem
descriptions. -/
def IssueStatus.value : IssueStatus → String
  | .TODO => "TODO"
  | .IN_PROGRESS => "In Progress"
  | .DONE => "Done"
  | .INVALID => "Invalid"

/-- The fixed raw-status lookup table, keys already lowercase. -/
def STATUS_MAP : List (String × IssueStatus) :=
  [("backlog", .TODO),
   ("todo", .TODO),
   ("to do", .TODO),
   ("in progress", .IN_PROGRESS),
   ("assigned", .IN_PROGRESS),
   ("blocked", .IN_PROGRESS),
   ("in review", .IN_PROGRESS),
   ("pending product/design input", .IN_PROGRESS),
   ("done", .DONE),
   ("abandoned", .INVALID),
   ("duplicate", .INVALID),
   ("wont fix", .INVALID),
   ("won\x27t fix", .INVALID),
   ("code review / pending push", .IN_PROGRESS),
   ("ready for deployment", .IN_PROGRESS)]

/-- Errors raised inside the analyzer: an unrecognized raw status, which
the source surfaces as a lookup error, or a failed scoring call. -/
inductive AnalysisError
  | unknownStatus (raw : String)
  | oracleFailure (msg : String)
deriving DecidableEq, Repr

/-- The Python str.lower call, embedded over the character list so that
it evaluates in the kernel. -/
def lowerString (s : String) : String :=
  String.mk (s.data.map Char.toLower)

/-- Issue.get_status, total form: case-insensitive lookup in the fixed
table. -/
def get_status (raw : String) : Option IssueStatus :=
  STATUS_MAP.lookup (lowerString raw)

/-- Issue.get_status as the analyzer observes it: an unrecognized raw
status raises a lookup error carrying the offending text. -/
def get_statusE (raw : String) : Except AnalysisError IssueStatus :=
  match get_status raw with
  | some st => .ok st
  | none => .error (.unknownStatus raw)

/-- The problem kinds of the tracking rule engine. -/
inductive ProblemType
  | MISSING_START_DATE
  | MISSING_DUE_DATE
  | PAST_DUE_DATE
  | IN_PROGRESS_BEFORE_START_DATE
  | MISSING_EPIC_UPDATE
  | IN_PROGRESS_EPIC_WITHOUT_STORIES
  | DUE_DATE_CHANGED
  | LOW_EPIC_UPDATE_SCORE
deriving DecidableEq, Repr

/-- The fields of an issue read by the per-issue rule set: the Python
type name, the key, the raw status, and the optional dates as day
numbers. -/
structure StatusView where
  typeName : String
  key : String
  status : String
  due_date : Option Int := none
  start_date : Option Int := none
deriving DecidableEq, Repr

/-- A tracking problem record. -/
structure TrackingProblem where
  problem_type : ProblemType
  description : String
  issue : StatusView
deriving DecidableEq, Repr

/-- The Python truthiness pattern d and d below bound: false when the
optional date is absent. -/
def optBefore (d : Option Int) (bound : Int) : Bool :=
  match d with
  | some x => decide (x < bound)
  | none => false

/-- The Python truthiness pattern d and d above bound: false when the
optional date is absent. -/
def optAfter (d : Option Int) (bound : Int) : Bool :=
  match d with
  | some x => decide (x > bound)
  | none => false

/-- The per-issue rule set of the analyzer, one conditional append per
rule in source order. An unrecognized raw status propagates as an
error. -/
def analyze_status (today : Int) (issue : StatusView) :
    Except AnalysisError (List TrackingProblem) :=
  match get_statusE issue.status with
  | .error e => .error e
  | .ok st =>
    let p1 : List TrackingProblem :=
      if (st = IssueStatus.TODO ∨ st = IssueStatus.IN_PROGRESS) ∧ issue.due_date = none then
        [{ problem_type := .MISSING_DUE_DATE,
           description := issue.typeName ++ " " ++ issue.key ++ " has no due date set",
           issue := issue }]
      else []
    let p2 : List TrackingProblem :=
      if st = IssueStatus.TODO ∧ issue.start_date = none then
        [{ problem_type := .MISSING_START_DATE,
           description := issue.typeName ++ " " ++ issue.key ++ " has no start date set",
           issue := issue }]
      else []
    let p3 : List TrackingProblem :=
      if st = IssueStatus.TODO ∧ optBefore issue.start_date today then
        [{ problem_type := .IN_PROGRESS_BEFORE_START_DATE,
           description := issue.typeName ++ " " ++ issue.key ++
             " is in TODO status but has a start date in the past",
           issue := issue }]
      else []
    let p4 : List TrackingProblem :=
      if st = IssueStatus.IN_PROGRESS ∧ optAfter issue.start_date today then
        [{ problem_type := .IN_PROGRESS_BEFORE_START_DATE,
           description := issue.typeName ++ " " ++ issue.key ++
             " is in IN_PROGRESS status but has a start date in the future",
           issue := issue }]
      else []
    let p5 : List TrackingProblem :=
      if ¬(st = IssueStatus.DONE ∨ st = IssueStatus.INVALID) ∧ optBefore issue.due_date today then
        [{ problem_type := .PAST_DUE_DATE,
           description := issue.typeName ++ " " ++ issue.key ++ " is in " ++ st.value ++
             " status but has a due date in the past",
           issue := issue }]
      else []
    .ok (p1 ++ p2 ++ p3 ++ p4 ++ p5)

/-- The status enum of an epic update. -/
inductive EpicUpdateStatus
  | ON_TRACK
  | AT_RISK
  | OFF_TRACK
deriving DecidableEq, Repr

/-- An epic update: optional timestamp as a day number, freeform content,
and a status label. -/
structure EpicUpdate where
  updated : Option Int := none
  content : String := ""
  status : EpicUpdateStatus := .ON_TRACK
deriving DecidableEq, Repr

/-- A JIRA epic as the analyzer reads it. -/
structure Epic where
  project_key : String := ""
  key : String
  summary : String := ""
  description : Option String := none
  status : String
  due_date : Option Int := none
  start_date : Option Int := none
  last_epic_update : Option EpicUpdate := none
deriving DecidableEq, Repr

/-- A JIRA story as the analyzer reads it. -/
structure Story where
  project_key : String := ""
  key : String
  summary : String := ""
  description : Option String := none
  status : String
  due_date : Option Int := none
  start_date : Option Int := none
deriving DecidableEq, Repr

/-- The rule-set view of an epic; its Python type name is Epic. -/
def Epic.view (e : Epic) : StatusView :=
  { typeName := "Epic", key := e.key, status := e.status,
    due_date := e.due_date, start_date := e.start_date }

/-- The rule-set view of a story; its Python type name is Story. -/
def Story.view (s : Story) : StatusView :=
  { typeName := "Story", key := s.key, status := s.status,
    due_date := s.due_date, start_date := s.start_date }

/-- The epic update freshness check of the analyzer: an update exists,
carries a timestamp, and its age in days is strictly under seven. -/
def has_epic_update (today : Int) (epic : Epic) : Bool :=
  match epic.last_epic_update with
  | none => false
  | some u =>
    match u.updated with
    | none => false
    | some updated => decide (today - updated < 7)

/-- The low-score threshold of the source, the literal 3.5, written as
an explicit reduced fraction so that it evaluates in the kernel. -/
def lowScoreThreshold : Rat := ⟨7, 2, by decide, by decide⟩

theorem lowScoreThreshold_eq : lowScoreThreshold = 3.5 := by
  unfold lowScoreThreshold
  rw [Rat.mk'_eq_divInt, Rat.divInt_eq_div]
  norm_num

/-- One scored criterion of an epic update evaluation. -/
structure Evaluation where
  score : Int
  explanation : String
deriving DecidableEq, Repr

/-- The structured evaluation the score oracle returns for one epic. -/
structure EpicStatusEvaluation where
  epic_key : String := ""
  epic_status_clarity : Evaluation := { score := 0, explanation := "" }
  deliverables_defined : Evaluation := { score := 0, explanation := "" }
  risk_identification_and_mitigation : Evaluation := { score := 0, explanation := "" }
  status_enum_justification : Evaluation := { score := 0, explanation := "" }
  delivery_confidence : Evaluation := { score := 0, explanation := "" }
  average_score : Rat := 0
deriving DecidableEq, Repr

/-- The report analyze_epics builds. The insertion-ordered evaluations
dict is modelled as an association list in insertion order. -/
structure ExecutionReport where
  epics : List Epic
  problems : List TrackingProblem
  stories : List Story
  evaluations : List (String × EpicStatusEvaluation)
deriving DecidableEq, Repr

/-- One iteration of the analyze_epics loop: the epic's own rule problems
first; for an epic not in progress nothing else; otherwise the story
fetch, the structural problem when no stories came back, the per-story
rule problems, and finally the freshness check leading either to a
missing-update problem or to a scoring call that records an evaluation
and possibly a low-score problem. Returns what the iteration appends to
the shared problem, story and evaluation accumulators. -/
def analyze_epic (fetch : String → List Story)
    (oracle : Epic → Except AnalysisError EpicStatusEvaluation)
    (today : Int) (epic : Epic) :
    Except AnalysisError
      (List TrackingProblem × List Story × List (String × EpicStatusEvaluation)) :=
  match analyze_status today epic.view with
  | .error e => .error e
  | .ok base =>
    match get_statusE epic.status with
    | .error e => .error e
    | .ok st =>
      if st ≠ IssueStatus.IN_PROGRESS then .ok (base, [], [])
      else
        let stories := fetch epic.key
        let structural : List TrackingProblem :=
          if stories = [] then
            [{ problem_type := .IN_PROGRESS_EPIC_WITHOUT_STORIES,
               description := "Epic " ++ epic.key ++ " is in IN_PROGRESS status but has no stories",
               issue := epic.view }]
          else []
        match stories.mapM (fun story => analyze_status today story.view) with
        | .error e => .error e
        | .ok storyLists =>
          let story_problems := storyLists.flatten
          if has_epic_update today epic = false then
            .ok (base ++ structural ++ story_problems ++
              [{ problem_type := .MISSING_EPIC_UPDATE,
                 description := "Epic " ++ epic.key ++
                   " is in progress but has no recent update (older than 7 days)",
                 issue := epic.view }], stories, [])
          else
            match oracle epic with
            | .error e => .error e
            | .ok ev =>
              let low : List TrackingProblem :=
                if ev.average_score ≤ lowScoreThreshold then
                  [{ problem_type := .LOW_EPIC_UPDATE_SCORE,
                     description := "Epic " ++ epic.key ++ " has a low average score (" ++
                       toString ev.average_score ++ ")",
                     issue := epic.view }]
                else []
              .ok (base ++ structural ++ story_problems ++ low, stories, [(epic.key, ev)])

/-- The analyze_epics loop, concatenating what each iteration appends to
the shared accumulators. A raised error anywhere aborts the loop. -/
def analyze_epics_loop (fetch : String → List Story)
    (oracle : Epic → Except AnalysisError EpicStatusEvaluation) (today : Int) :
    List Epic →
      Except AnalysisError
        (List TrackingProblem × List Story × List (String × EpicStatusEvaluation))
  | [] => .ok ([], [], [])
  | epic :: rest =>
    match analyze_epic fetch oracle today epic with
    | .error e => .error e
    | .ok (p, s, ev) =>
      match analyze_epics_loop fetch oracle today rest with
      | .error e => .error e
      | .ok (ps, ss, evs) => .ok (p ++ ps, s ++ ss, ev ++ evs)

/-- ExecutionAnalyzer.analyze_epics, with the JIRA story fetch and the
scoring call (prompting, API call and response parsing) abstracted as
collaborator functions; a raised error aborts the whole call with no
report. -/
def analyze_epics (fetch : String → List Story)
    (oracle : Epic → Except AnalysisError EpicStatusEvaluation) (today : Int)
    (epics : List Epic) : Except AnalysisError ExecutionReport :=
  match analyze_epics_loop fetch oracle today epics with
  | .error e => .error e
  | .ok (problems, all_stories, evaluations) =>
    .ok { epics := epics, problems := problems, stories := all_stories,
          evaluations := evaluations }

theorem analyze_status_types (today : Int) (v : StatusView) (l : List TrackingProblem)
    (h : analyze_status today v = Except.ok l) :
    ∀ q ∈ l, q.problem_type = ProblemType.MISSING_DUE_DATE ∨
      q.problem_type = ProblemType.MISSING_START_DATE ∨
      q.problem_type = ProblemType.IN_PROGRESS_BEFORE_START_DATE ∨
      q.problem_type = ProblemType.PAST_DUE_DATE := by
  unfold analyze_status at h
  cases hg : get_statusE v.status with
  | error e => rw [hg] at h; cases h
  | ok st =>
    simp only [hg, Except.ok.injEq] at h
    subst h
    intro q hq
    simp only [List.mem_append] at hq
    rcases hq with ((((hq | hq) | hq) | hq) | hq) <;>
      (split at hq <;> simp_all)

theorem has_epic_update_false_iff (today : Int) (epic : Epic) :
    has_epic_update today epic = false ↔
      epic.last_epic_update = none ∨
        ∃ u, epic.last_epic_update = some u ∧
          (u.updated = none ∨ ∃ t, u.updated = some t ∧ 7 ≤ today - t) := by
  unfold has_epic_update
  cases hu : epic.last_epic_update with
  | none => simp
  | some u =>
    cases ht : u.updated with
    | none => simp [ht]
    | some t => simp [ht, decide_eq_false_iff_not, not_lt]

theorem has_epic_update_true_iff (today : Int) (epic : Epic) :
    has_epic_update today epic = true ↔
      ∃ u t, epic.last_epic_update = some u ∧ u.updated = some t ∧ today - t < 7 := by
  unfold has_epic_update
  cases hu : epic.last_epic_update with
  | none => simp
  | some u =>
    cases ht : u.updated with
    | none => simp [ht]
    | some t => simp [ht]

theorem mapM_analyze_status_mem (today : Int) (stories : List Story)
    (ls : List (List TrackingProblem))
    (h : stories.mapM (fun story => analyze_status today story.view) = Except.ok ls) :
    ∀ l ∈ ls, ∃ v, analyze_status today v = Except.ok l := by
  induction stories generalizing ls with
  | nil =>
    simp only [List.mapM_nil, pure, Except.pure, Except.ok.injEq] at h
    subst h
    intro l hl
    cases hl
  | cons a as ih =>
    rw [List.mapM_cons] at h
    cases ha : analyze_status today a.view with
    | error e => rw [ha] at h; cases h
    | ok x =>
      rw [ha] at h
      cases hrest : as.mapM (fun story => analyze_status today story.view) with
      | error e =>
        rw [hrest] at h
        cases h
      | ok xs =>
        rw [hrest] at h
        simp only [bind, Except.bind, pure, Except.pure, Except.ok.injEq] at h
        subst h
        intro l hl
        rcases List.mem_cons.mp hl with hl | hl
        · exact ⟨a.view, hl ▸ ha⟩
        · exact ih xs hrest l hl

theorem analyze_epics_singleton (fetch : String → List Story)
    (oracle : Epic → Except AnalysisError EpicStatusEvaluation) (today : Int)
    (epic : Epic) (r : ExecutionReport)
    (hr : analyze_epics fetch oracle today [epic] = Except.ok r) :
    ∃ p s ev, analyze_epic fetch oracle today epic = Except.ok (p, s, ev) ∧
      r.problems = p ∧ r.stories = s ∧ r.evaluations = ev := by
  unfold analyze_epics at hr
  cases hl : analyze_epics_loop fetch oracle today [epic] with
  | error e => rw [hl] at hr; cases hr
  | ok t =>
    obtain ⟨ps, ss, evs⟩ := t
    rw [hl] at hr
    simp only [Except.ok.injEq] at hr
    subst hr
    unfold analyze_epics_loop at hl
    cases hae : analyze_epic fetch oracle today epic with
    | error e => rw [hae] at hl; cases hl
    | ok t2 =>
      obtain ⟨p, s, ev⟩ := t2
      rw [hae] at hl
      simp only [analyze_epics_loop, List.append_nil, Except.ok.injEq, Prod.mk.injEq] at hl
      exact ⟨p, s, ev, rfl, hl.1.symm, hl.2.1.symm, hl.2.2.symm⟩

theorem analyze_epic_update_split (fetch : String → List Story)
    (oracle : Epic → Except AnalysisError EpicStatusEvaluation) (today : Int)
    (epic : Epic) (p : List TrackingProblem) (s : List Story)
    (ev : List (String × EpicStatusEvaluation))
    (hst : get_status epic.status = some IssueStatus.IN_PROGRESS)
    (h : analyze_epic fetch oracle today epic = Except.ok (p, s, ev)) :
    (has_epic_update today epic = false →
      (∃ q ∈ p, q.problem_type = ProblemType.MISSING_EPIC_UPDATE) ∧ ev = [] ∧
        ∀ q ∈ p, q.problem_type ≠ ProblemType.LOW_EPIC_UPDATE_SCORE) ∧
    (has_epic_update today epic = true →
      ∃ e2, oracle epic = Except.ok e2 ∧ ev = [(epic.key, e2)] ∧
        (∀ q ∈ p, q.problem_type ≠ ProblemType.MISSING_EPIC_UPDATE) ∧
        ((∃ q ∈ p, q.problem_type = ProblemType.LOW_EPIC_UPDATE_SCORE) ↔
          e2.average_score ≤ lowScoreThreshold)) := by
  have hge : get_statusE epic.status = Except.ok IssueStatus.IN_PROGRESS := by
    unfold get_statusE; rw [hst]
  cases hbase : analyze_status today epic.view with
  | error e => simp only [analyze_epic, hbase] at h; cases h
  | ok base =>
    simp only [analyze_epic, hbase, hge, ne_eq, not_true_eq_false, if_false,
      reduceIte] at h
    cases hsl : (fetch epic.key).mapM (fun story => analyze_status today story.view) with
    | error e => simp only [hsl] at h; cases h
    | ok storyLists =>
      simp only [hsl] at h
      have hbase_types := analyze_status_types today epic.view base hbase
      have hstory_types := mapM_analyze_status_mem today (fetch epic.key) storyLists hsl
      cases hhu : has_epic_update today epic with
      | false =>
        simp only [hhu, reduceIte, Except.ok.injEq, Prod.mk.injEq] at h
        obtain ⟨hp, -, hev⟩ := h
        subst hp; subst hev
        refine ⟨fun _ =>
          ⟨⟨_, List.mem_append_right _ (List.mem_singleton_self _), rfl⟩, rfl, ?_⟩,
          fun htr => by cases htr⟩
        intro q hq
        simp only [List.mem_append] at hq
        rcases hq with ((hq | hq) | hq) | hq
        · rcases hbase_types q hq with h4 | h4 | h4 | h4 <;> simp [h4]
        · split at hq <;> simp at hq
          simp [hq]
        · obtain ⟨lst, hlst, hql⟩ := List.mem_flatten.mp hq
          obtain ⟨v, hv⟩ := hstory_types lst hlst
          rcases analyze_status_types today v lst hv q hql with h4 | h4 | h4 | h4 <;> simp [h4]
        · simp only [List.mem_singleton] at hq
          simp [hq]
      | true =>
        simp only [hhu, Bool.true_eq_false, if_false, reduceIte] at h
        cases hor : oracle epic with
        | error e => simp only [hor] at h; cases h
        | ok e2 =>
          simp only [hor, Except.ok.injEq, Prod.mk.injEq] at h
          obtain ⟨hp, hs2, hev⟩ := h
          subst hp; subst hev
          constructor
          · intro hf; cases hf
          refine fun _ => ⟨e2, rfl, rfl, ?_, ?_⟩
          · intro q hq
            simp only [List.mem_append] at hq
            rcases hq with ((hq | hq) | hq) | hq
            · rcases hbase_types q hq with h4 | h4 | h4 | h4 <;> simp [h4]
            · split at hq <;> simp at hq
              simp [hq]
            · obtain ⟨lst, hlst, hql⟩ := List.mem_flatten.mp hq
              obtain ⟨v, hv⟩ := hstory_types lst hlst
              rcases analyze_status_types today v lst hv q hql with h4 | h4 | h4 | h4 <;>
                simp [h4]
            · split at hq <;> simp at hq
              simp [hq]
          · constructor
            · rintro ⟨q, hq, hqt⟩
              simp only [List.mem_append] at hq
              rcases hq with ((hq | hq) | hq) | hq
              · rcases hbase_types q hq with h4 | h4 | h4 | h4 <;> simp [h4] at hqt
              · split at hq <;> simp at hq
                simp [hq] at hqt
              · obtain ⟨lst, hlst, hql⟩ := List.mem_flatten.mp hq
                obtain ⟨v, hv⟩ := hstory_types lst hlst
                rcases analyze_status_types today v lst hv q hql with h4 | h4 | h4 | h4 <;>
                  simp [h4] at hqt
              · by_cases hle : e2.average_score ≤ lowScoreThreshold
                · exact hle
                · rw [if_neg hle] at hq
                  cases hq
            · intro hle
              exact ⟨_, List.mem_append_right _ (by rw [if_pos hle]; exact List.mem_singleton_self _), rfl⟩

/-- C5: for an in-progress epic with a fresh update, analysis of that epic
records the oracle evaluation under the epic key, and emits
LOW_EPIC_UPDATE_SCORE exactly when the average score is at most 3.5, the
boundary included. -/
theorem c5_low_epic_update_score (fetch : String → List Story)
    (oracle : Epic → Except AnalysisError EpicStatusEvaluation) (today : Int)
    (epic : Epic) (ev0 : EpicStatusEvaluation) (r : ExecutionReport)
    (hst : get_status epic.status = some IssueStatus.IN_PROGRESS)
    (hfresh : has_epic_update today epic = true)
    (hor : oracle epic = Except.ok ev0)
    (hr : analyze_epics fetch oracle today [epic] = Except.ok r) :
    r.evaluations = [(epic.key, ev0)] ∧
      ((∃ q ∈ r.problems, q.problem_type = ProblemType.LOW_EPIC_UPDATE_SCORE) ↔
        ev0.average_score ≤ 3.5) := by
  obtain ⟨p, s, ev, hae, hp, hs, hev⟩ := analyze_epics_singleton fetch oracle today epic r hr
  obtain ⟨-, htrue⟩ := analyze_epic_update_split fetch oracle today epic p s ev hst hae
  obtain ⟨e2, hor2, hev2, -, hiff⟩ := htrue hfresh
  rw [hor] at hor2
  injection hor2 with he2
  subst he2
  rw [lowScoreThreshold_eq] at hiff
  exact ⟨by rw [hev, hev2], by rw [hp]; exact hiff⟩

/-- A fresh in-progress epic used as a concrete analysis input. -/
def epicW : Epic :=
  { key := "E1", status := "In Progress", due_date := some 100, start_date := some 0,
    last_epic_update := some { updated := some 50, content := "update", status := .ON_TRACK } }

/-- A done story used as a concrete fetched child. -/
def storyW : Story :=
  { key := "S1", status := "Done", due_date := some 100, start_date := some 0 }

/-- A concrete evaluation whose average is above the threshold. -/
def evW : EpicStatusEvaluation := { epic_key := "E1", average_score := 4 }

/-- A concrete story fetch collaborator. -/
def fetchW : String → List Story := fun _ => [storyW]

/-- A concrete score oracle that always succeeds. -/
def oracleW : Epic → Except AnalysisError EpicStatusEvaluation := fun _ => .ok evW

/-- Concrete instance of the C5 theorem. -/
theorem c5_low_epic_update_score_witness :
    ∃ r, analyze_epics fetchW oracleW 50 [epicW] = Except.ok r ∧
      r.evaluations = [(epicW.key, evW)] ∧
      ((∃ q ∈ r.problems, q.problem_type = ProblemType.LOW_EPIC_UPDATE_SCORE) ↔
        evW.average_score ≤ 3.5) := by
  have hr : analyze_epics fetchW oracleW 50 [epicW] = Except.ok
      { epics := [epicW], problems := [], stories := [storyW],
        evaluations := [("E1", evW)] } := by rfl
  exact ⟨_, hr, c5_low_epic_update_score fetchW oracleW 50 epicW evW _
    (by rfl) (by rfl) (by rfl) hr⟩

/-- C6: for an in-progress epic, analysis emits MISSING_EPIC_UPDATE exactly
when the epic lacks an update, the update lacks a timestamp, or the update
is at least seven days old; the update counts as fresh exactly when it is
present, timestamped and strictly under seven days old. -/
theorem c6_missing_epic_update (fetch : String → List Story)
    (oracle : Epic → Except AnalysisError EpicStatusEvaluation) (today : Int)
    (epic : Epic) (r : ExecutionReport)
    (hst : get_status epic.status = some IssueStatus.IN_PROGRESS)
    (hr : analyze_epics fetch oracle today [epic] = Except.ok r) :
    ((∃ q ∈ r.problems, q.problem_type = ProblemType.MISSING_EPIC_UPDATE) ↔
      (epic.last_epic_update = none ∨
        ∃ u, epic.last_epic_update = some u ∧
          (u.updated = none ∨ ∃ t, u.updated = some t ∧ 7 ≤ today - t))) ∧
    (has_epic_update today epic = true ↔
      ∃ u t, epic.last_epic_update = some u ∧ u.updated = some t ∧ today - t < 7) := by
  refine ⟨?_, has_epic_update_true_iff today epic⟩
  obtain ⟨p, s, ev, hae, hp, -, -⟩ := analyze_epics_singleton fetch oracle today epic r hr
  obtain ⟨hfalse, htrue⟩ := analyze_epic_update_split fetch oracle today epic p s ev hst hae
  rw [hp, ← has_epic_update_false_iff]
  rcases Bool.eq_false_or_eq_true (has_epic_update today epic) with hhu | hhu
  · rw [hhu]
    obtain ⟨e2, -, -, hnomem, -⟩ := htrue hhu
    constructor
    · rintro ⟨q, hq, hqt⟩
      exact absurd hqt (hnomem q hq)
    · intro hf
      cases hf
  · rw [hhu]
    exact ⟨fun _ => rfl, fun _ => (hfalse hhu).1⟩

/-- An in-progress epic whose update is older than seven days. -/
def epicStale : Epic :=
  { key := "E2", status := "Blocked", due_date := some 100, start_date := some 0,
    last_epic_update := some { updated := some 40, content := "old", status := .AT_RISK } }

/-- Concrete instance of the C6 theorem. -/
theorem c6_missing_epic_update_witness :
    ∃ r, analyze_epics fetchW oracleW 50 [epicStale] = Except.ok r ∧
      ((∃ q ∈ r.problems, q.problem_type = ProblemType.MISSING_EPIC_UPDATE) ↔
        (epicStale.last_epic_update = none ∨
          ∃ u, epicStale.last_epic_update = some u ∧
            (u.updated = none ∨ ∃ t, u.updated = some t ∧ 7 ≤ 50 - t))) ∧
      (has_epic_update 50 epicStale = true ↔
        ∃ u t, epicStale.last_epic_update = some u ∧ u.updated = some t ∧ 50 - t < 7) := by
  have hr : analyze_epics fetchW oracleW 50 [epicStale] = Except.ok
      { epics := [epicStale],
        problems := [{ problem_type := ProblemType.MISSING_EPIC_UPDATE,
                       description := "Epic E2 is in progress but has no recent update (older than 7 days)",
                       issue := epicStale.view }],
        stories := [storyW], evaluations := [] } := by rfl
  exact ⟨_, hr, c6_missing_epic_update fetchW oracleW 50 epicStale _ (by rfl) hr⟩

/-- C7: the status categorizer is a case-insensitive exact lookup against
the fixed table: a raw status whose lowercase form is a table key maps to
its canonical status, any other input fails with a lookup error carrying
the raw text rather than a silent default, and the outcome depends on the
input only through its lowercase form. -/
theorem c7_categorize_lookup :
    (∀ raw st, STATUS_MAP.lookup (lowerString raw) = some st →
      get_statusE raw = Except.ok st) ∧
    (∀ raw, STATUS_MAP.lookup (lowerString raw) = none →
      get_statusE raw = Except.error (AnalysisError.unknownStatus raw)) ∧
    (∀ r1 r2, lowerString r1 = lowerString r2 → get_status r1 = get_status r2) := by
  refine ⟨?_, ?_, ?_⟩
  · intro raw st h
    simp only [get_statusE, get_status, h]
  · intro raw h
    simp only [get_statusE, get_status, h]
  · intro r1 r2 h
    simp only [get_status, h]

/-- Concrete instance of the C7 theorem. -/
theorem c7_categorize_lookup_witness :
    get_statusE "Backlog" = Except.ok IssueStatus.TODO ∧
      get_statusE "Shipped" = Except.error (AnalysisError.unknownStatus "Shipped") ∧
      get_status "Done" = get_status "DONE" :=
  ⟨c7_categorize_lookup.1 "Backlog" IssueStatus.TODO rfl,
   c7_categorize_lookup.2.1 "Shipped" rfl,
   c7_categorize_lookup.2.2 "Done" "DONE" rfl⟩

/-- C9: an epic whose canonical status is TODO with neither a due date nor
a start date receives from the per-issue rule set exactly the problems
MISSING_DUE_DATE then MISSING_START_DATE and nothing else. -/
theorem c9_todo_missing_dates (today : Int) (epic : Epic)
    (hst : get_status epic.status = some IssueStatus.TODO)
    (hdue : epic.due_date = none) (hstart : epic.start_date = none) :
    ∃ probs, analyze_status today epic.view = Except.ok probs ∧
      probs.map (fun q => q.problem_type) =
        [ProblemType.MISSING_DUE_DATE, ProblemType.MISSING_START_DATE] := by
  have hge : get_statusE epic.view.status = Except.ok IssueStatus.TODO := by
    unfold get_statusE
    rw [show epic.view.status = epic.status from rfl, hst]
  have hd : epic.view.due_date = none := hdue
  have hs : epic.view.start_date = none := hstart
  have hcomp : analyze_status today epic.view = Except.ok
      [{ problem_type := ProblemType.MISSING_DUE_DATE,
         description := epic.view.typeName ++ " " ++ epic.view.key ++ " has no due date set",
         issue := epic.view },
       { problem_type := ProblemType.MISSING_START_DATE,
         description := epic.view.typeName ++ " " ++ epic.view.key ++ " has no start date set",
         issue := epic.view }] := by
    simp [analyze_status, hge, hd, hs, optBefore]
  exact ⟨_, hcomp, rfl⟩

/-- An epic in raw status ToDo with no dates set. -/
def epicTodo : Epic := { key := "E3", status := "ToDo" }

/-- Concrete instance of the C9 theorem. -/
theorem c9_todo_missing_dates_witness :
    ∃ probs, analyze_status 50 epicTodo.view = Except.ok probs ∧
      probs.map (fun q => q.problem_type) =
        [ProblemType.MISSING_DUE_DATE, ProblemType.MISSING_START_DATE] :=
  c9_todo_missing_dates 50 epicTodo rfl rfl rfl

theorem analyze_epic_oracle_error (fetch : String → List Story)
    (oracle : Epic → Except AnalysisError EpicStatusEvaluation) (today : Int)
    (epic : Epic)
    (hst : get_status epic.status = some IssueStatus.IN_PROGRESS)
    (hfresh : has_epic_update today epic = true)
    (hor : ∃ msg, oracle epic = Except.error msg) :
    ∃ err, analyze_epic fetch oracle today epic = Except.error err := by
  obtain ⟨msg, hmsg⟩ := hor
  have hge : get_statusE epic.status = Except.ok IssueStatus.IN_PROGRESS := by
    unfold get_statusE; rw [hst]
  cases hbase : analyze_status today epic.view with
  | error e => exact ⟨e, by simp only [analyze_epic, hbase]⟩
  | ok base =>
    cases hsl : (fetch epic.key).mapM (fun story => analyze_status today story.view) with
    | error e =>
      exact ⟨e, by simp only [analyze_epic, hbase, hge, ne_eq, not_true_eq_false,
        if_false, reduceIte, hsl]⟩
    | ok ls =>
      exact ⟨msg, by simp only [analyze_epic, hbase, hge, ne_eq, not_true_eq_false,
        if_false, reduceIte, hsl, hfresh, Bool.true_eq_false, hmsg]⟩

theorem analyze_epics_loop_error (fetch : String → List Story)
    (oracle : Epic → Except AnalysisError EpicStatusEvaluation) (today : Int)
    {epics : List Epic} {epic : Epic} (hmem : epic ∈ epics)
    (hst : get_status epic.status = some IssueStatus.IN_PROGRESS)
    (hfresh : has_epic_update today epic = true)
    (hor : ∃ msg, oracle epic = Except.error msg) :
    ∃ err, analyze_epics_loop fetch oracle today epics = Except.error err := by
  induction hmem with
  | head as =>
    obtain ⟨err, herr⟩ := analyze_epic_oracle_error fetch oracle today epic hst hfresh hor
    exact ⟨err, by simp only [analyze_epics_loop, herr]⟩
  | tail b hmem2 ih =>
    cases hae : analyze_epic fetch oracle today b with
    | error e => exact ⟨e, by simp only [analyze_epics_loop, hae]⟩
    | ok t =>
      obtain ⟨p, s, ev⟩ := t
      obtain ⟨err, herr⟩ := ih
      exact ⟨err, by simp only [analyze_epics_loop, hae, herr]⟩

/-- C8: if the score oracle call fails for some in-progress epic with a
fresh update anywhere in the input list, the whole analysis call fails
with an error: no report and no partial problem list is returned. -/
theorem c8_oracle_failure_aborts (fetch : String → List Story)
    (oracle : Epic → Except AnalysisError EpicStatusEvaluation) (today : Int)
    (epics : List Epic)
    (h : ∃ epic ∈ epics, get_status epic.status = some IssueStatus.IN_PROGRESS ∧
      has_epic_update today epic = true ∧ ∃ msg, oracle epic = Except.error msg) :
    ∃ err, analyze_epics fetch oracle today epics = Except.error err := by
  obtain ⟨epic, hmem, hst, hfresh, hor⟩ := h
  obtain ⟨err, herr⟩ := analyze_epics_loop_error fetch oracle today hmem hst hfresh hor
  exact ⟨err, by simp only [analyze_epics, herr]⟩

/-- A score oracle whose response never parses. -/
def oracleFail : Epic → Except AnalysisError EpicStatusEvaluation :=
  fun _ => .error (.oracleFailure "unparsable response")

/-- Concrete instance of the C8 theorem. -/
theorem c8_oracle_failure_aborts_witness :
    ∃ err, analyze_epics fetchW oracleFail 50 [epicW] = Except.error err :=
  c8_oracle_failure_aborts fetchW oracleFail 50 [epicW]
    ⟨epicW, List.mem_singleton_self _, rfl, rfl,
      ⟨AnalysisError.oracleFailure "unparsable response", rfl⟩⟩

/-- The per-epic problem block as the claim orders it: the epic's own
rule problems first, then the structural problem when an in-progress epic
has no stories, then the per-story rule problems in fetch order, then the
update-related problem last: MISSING_EPIC_UPDATE when the update is stale
or absent, otherwise LOW_EPIC_UPDATE_SCORE when the fresh update scores
at most the threshold. An epic not in progress contributes only its rule
problems. -/
def epic_problem_block (fetch : String → List Story)
    (oracle : Epic → Except AnalysisError EpicStatusEvaluation)
    (today : Int) (epic : Epic) : Except AnalysisError (List TrackingProblem) :=
  match analyze_status today epic.view with
  | .error e => .error e
  | .ok ruleProblems =>
    match get_statusE epic.status with
    | .error e => .error e
    | .ok st =>
      if st = IssueStatus.IN_PROGRESS then
        let stories := fetch epic.key
        let structural : List TrackingProblem :=
          if stories = [] then
            [{ problem_type := .IN_PROGRESS_EPIC_WITHOUT_STORIES,
               description := "Epic " ++ epic.key ++ " is in IN_PROGRESS status but has no stories",
               issue := epic.view }]
          else []
        match stories.mapM (fun story => analyze_status today story.view) with
        | .error e => .error e
        | .ok storyLists =>
          let per_story := storyLists.flatten
          if has_epic_update today epic = false then
            .ok (ruleProblems ++ structural ++ per_story ++
              [{ problem_type := .MISSING_EPIC_UPDATE,
                 description := "Epic " ++ epic.key ++
                   " is in progress but has no recent update (older than 7 days)",
                 issue := epic.view }])
          else
            match oracle epic with
            | .error e => .error e
            | .ok ev =>
              .ok (ruleProblems ++ structural ++ per_story ++
                (if ev.average_score ≤ lowScoreThreshold then
                  [{ problem_type := .LOW_EPIC_UPDATE_SCORE,
                     description := "Epic " ++ epic.key ++ " has a low average score (" ++
                       toString ev.average_score ++ ")",
                     issue := epic.view }]
                 else []))
      else .ok ruleProblems

theorem epic_problem_block_eq (fetch : String → List Story)
    (oracle : Epic → Except AnalysisError EpicStatusEvaluation) (today : Int)
    (epic : Epic) (p : List TrackingProblem) (s : List Story)
    (ev : List (String × EpicStatusEvaluation))
    (h : analyze_epic fetch oracle today epic = Except.ok (p, s, ev)) :
    epic_problem_block fetch oracle today epic = Except.ok p := by
  cases hbase : analyze_status today epic.view with
  | error e => simp only [analyze_epic, hbase] at h; cases h
  | ok base =>
    cases hge : get_statusE epic.status with
    | error e => simp only [analyze_epic, hbase, hge] at h; cases h
    | ok st =>
      by_cases hip : st = IssueStatus.IN_PROGRESS
      · subst hip
        simp only [analyze_epic, hbase, hge, ne_eq, not_true_eq_false, if_false,
          reduceIte] at h
        simp only [epic_problem_block, hbase, hge, reduceIte]
        cases hsl : (fetch epic.key).mapM (fun story => analyze_status today story.view) with
        | error e => simp only [hsl] at h; cases h
        | ok ls =>
          simp only [hsl] at h ⊢
          cases hhu : has_epic_update today epic with
          | false =>
            simp only [hhu, reduceIte] at h ⊢
            simp only [Except.ok.injEq, Prod.mk.injEq] at h
            rw [h.1]
          | true =>
            simp only [hhu, Bool.true_eq_false, if_false, reduceIte] at h ⊢
            cases hor : oracle epic with
            | error e => simp only [hor] at h; cases h
            | ok e2 =>
              simp only [hor, Except.ok.injEq, Prod.mk.injEq] at h ⊢
              rw [h.1]
      · simp only [analyze_epic, hbase, hge, ne_eq, hip, not_false_eq_true, if_true,
          reduceIte, Except.ok.injEq, Prod.mk.injEq] at h
        simp only [epic_problem_block, hbase, hge, hip, reduceIte, if_neg,
          Except.ok.injEq]
        exact h.1

theorem analyze_epics_loop_blocks (fetch : String → List Story)
    (oracle : Epic → Except AnalysisError EpicStatusEvaluation) (today : Int)
    (epics : List Epic) (ps : List TrackingProblem) (ss : List Story)
    (evs : List (String × EpicStatusEvaluation))
    (hl : analyze_epics_loop fetch oracle today epics = Except.ok (ps, ss, evs)) :
    ∃ blocks, epics.mapM (epic_problem_block fetch oracle today) = Except.ok blocks ∧
      ps = blocks.flatten := by
  induction epics generalizing ps ss evs with
  | nil =>
    simp only [analyze_epics_loop, Except.ok.injEq, Prod.mk.injEq] at hl
    exact ⟨[], by simp only [List.mapM_nil, pure, Except.pure], by simp [← hl.1]⟩
  | cons a as ih =>
    cases hae : analyze_epic fetch oracle today a with
    | error e => simp only [analyze_epics_loop, hae] at hl; cases hl
    | ok t =>
      obtain ⟨p, s, ev⟩ := t
      cases hrest : analyze_epics_loop fetch oracle today as with
      | error e => simp only [analyze_epics_loop, hae, hrest] at hl; cases hl
      | ok t2 =>
        obtain ⟨ps2, ss2, evs2⟩ := t2
        simp only [analyze_epics_loop, hae, hrest, Except.ok.injEq, Prod.mk.injEq] at hl
        obtain ⟨bs, hbs, hflat⟩ := ih ps2 ss2 evs2 hrest
        have hblock := epic_problem_block_eq fetch oracle today a p s ev hae
        refine ⟨p :: bs, ?_, ?_⟩
        · rw [List.mapM_cons, hblock, hbs]
          rfl
        · rw [← hl.1, hflat]
          simp [List.flatten_cons]

/-- C10: for every input, the problem list of a successful analysis is the
concatenation, epic by epic in input order, of per-epic blocks each
ordered as: the epic's rule problems, then the structural
no-stories problem if any, then per-story problems in fetch order, then
the update-related problem last. -/
theorem c10_problem_ordering (fetch : String → List Story)
    (oracle : Epic → Except AnalysisError EpicStatusEvaluation) (today : Int)
    (epics : List Epic) (r : ExecutionReport)
    (hr : analyze_epics fetch oracle today epics = Except.ok r) :
    ∃ blocks, epics.mapM (epic_problem_block fetch oracle today) = Except.ok blocks ∧
      r.problems = blocks.flatten := by
  unfold analyze_epics at hr
  cases hl : analyze_epics_loop fetch oracle today epics with
  | error e => rw [hl] at hr; cases hr
  | ok t =>
    obtain ⟨ps, ss, evs⟩ := t
    rw [hl] at hr
    simp only [Except.ok.injEq] at hr
    subst hr
    exact analyze_epics_loop_blocks fetch oracle today epics ps ss evs hl

/-- Concrete instance of the C10 theorem. -/
theorem c10_problem_ordering_witness :
    ∃ blocks, [epicStale].mapM (epic_problem_block fetchW oracleW 50) = Except.ok blocks ∧
      ({ epics := [epicStale],
         problems := [{ problem_type := ProblemType.MISSING_EPIC_UPDATE,
                        description := "Epic E2 is in progress but has no recent update (older than 7 days)",
                        issue := epicStale.view }],
         stories := [storyW], evaluations := [] } : ExecutionReport).problems = blocks.flatten :=
  c10_problem_ordering fetchW oracleW 50 [epicStale] _ (by rfl)
